import Mathlib

/-!
Verification of the battmon battery-monitoring tool against its
specification.  The repository has two revisions of the logger:

* `src/battmon.py` (the standalone script): `log_battery_state` reads
  `/sys/class/power_supply`, keeps supplies whose `type` is `"Battery"`,
  stores the upper-cased first character of the raw status string and
  writes CSV rows `[time, status_code, capacity]`.
* `src/battmon/battmon.py` (the packaged variant): `get_battery_states`
  produces a snapshot per battery, `check_state` validates the required
  attributes, `log_battery_state` appends CSV rows
  `[time, status, capacity, energy_now, voltage_now]`, and
  `get_battery_history` reads the rows back with a cutoff filter.

The embedding below models the filesystem as explicit data: a power
supply is a mapping from attribute-file name to optional raw content,
and the log directory is an association list from file name to optional
row list (`none` models a file that cannot be opened).  Python numbers
are modelled exactly as rationals; decimal rendering of `str(int)` and
parsing of `float(str)` on plain decimal literals are modelled by
`intDecimal` and `pyFloat?` (exponent forms, `inf`/`nan` and IEEE
rounding are outside the model).
-/

deriving instance DecidableEq for Except

namespace Battmon

/-- A dynamically typed Python value appearing in a CSV row dictionary:
either a string field or a number (`restval=0` fills missing fields
with the integer `0`; `float()` conversions produce numbers). -/
inductive PyVal where
  | str (s : String) : PyVal
  | num (q : ℚ) : PyVal
deriving DecidableEq

/-- A value stored in a reconstructed history series: a leftover raw
string, a parsed number, or a `datetime` (kept as exact seconds since
the epoch, the argument of `datetime.datetime.fromtimestamp`). -/
inductive Entry where
  | str (s : String) : Entry
  | num (q : ℚ) : Entry
  | dt (secs : ℚ) : Entry
deriving DecidableEq

/-- Characters stripped by Python `str.strip()` (whitespace). -/
def isSpaceChar (c : Char) : Bool :=
  c.toNat = 32 || c.toNat = 9 || c.toNat = 10 || c.toNat = 13 || c.toNat = 11 || c.toNat = 12

/-- Strip whitespace from both ends of a character list. -/
def stripChars (l : List Char) : List Char :=
  ((l.dropWhile isSpaceChar).reverse.dropWhile isSpaceChar).reverse

/-- Model of Python `str.strip()`. -/
def pystrip (s : String) : String :=
  String.mk (stripChars s.data)

/-- Numeric value of a decimal digit character, if it is one. -/
def digitVal? (c : Char) : Option ℕ :=
  if 48 ≤ c.toNat ∧ c.toNat ≤ 57 then some (c.toNat - 48) else none

/-- Parse a run of decimal digits, most significant first, extending
the accumulator `k`; fails on any non-digit character. -/
def parseDigitsAux : List Char → ℕ → Option ℕ
  | [], k => some k
  | c :: rest, k =>
    match digitVal? c with
    | some d => parseDigitsAux rest (10 * k + d)
    | none => none

/-- Parse a non-empty all-digit character list as a natural number. -/
def parseNatChars (l : List Char) : Option ℕ :=
  if l.isEmpty then none else parseDigitsAux l 0

/-- Fuel-driven decimal rendering of a natural number: prepends the
digits of `n` (most significant first) to `acc`; `fuel ≥ n` suffices. -/
def natToCharsAux : ℕ → ℕ → List Char → List Char
  | 0, _, acc => acc
  | fuel + 1, n, acc =>
    if n = 0 then acc else natToCharsAux fuel (n / 10) (Nat.digitChar (n % 10) :: acc)

/-- Decimal digits of a natural number (model of Python `str` on a
non-negative int), with `"0"` for zero. -/
def natDecimalChars (n : ℕ) : List Char :=
  if n = 0 then ['0'] else natToCharsAux n n []

/-- Specification version of the decimal rendering, by recursion on the
value; used only in proofs. -/
def natSpec (n : ℕ) : List Char :=
  if _h : n < 10 then [Nat.digitChar n]
  else natSpec (n / 10) ++ [Nat.digitChar (n % 10)]
termination_by n
decreasing_by omega

/-- Model of Python `str` on an int: decimal digits with a leading
minus sign for negative values. -/
def intDecimal (i : Int) : String :=
  if i < 0 then String.mk ('-' :: natDecimalChars i.natAbs)
  else String.mk (natDecimalChars i.toNat)

/-- Parse an unsigned decimal literal, optionally with a fractional
part, as an exact rational. -/
def pyFloatCore (l : List Char) : Option ℚ :=
  match l.dropWhile (fun c => c ≠ '.') with
  | [] => (parseNatChars (l.takeWhile (fun c => c ≠ '.'))).map (fun n => (n : ℚ))
  | _ :: frac =>
    let ip := l.takeWhile (fun c => c ≠ '.')
    if frac.any (fun c => c = '.') then none
    else if ip.isEmpty && frac.isEmpty then none
    else
      match (if ip.isEmpty then some 0 else parseNatChars ip),
            (if frac.isEmpty then some 0 else parseNatChars frac) with
      | some a, some b => some ((a : ℚ) + (b : ℚ) / (10 : ℚ) ^ frac.length)
      | _, _ => none

/-- Model of Python `float(str)` on plain decimal literals: strips
whitespace, handles an optional sign, and returns the exact rational
value (exponent notation and `inf`/`nan` are not modelled). -/
def pyFloat? (s : String) : Option ℚ :=
  match stripChars s.data with
  | [] => none
  | c :: rest =>
    if c = '-' then (pyFloatCore rest).map (fun q => -q)
    else if c = '+' then pyFloatCore rest
    else pyFloatCore (c :: rest)

/-- Model of the source's `is_float`: whether `float()` succeeds. -/
def is_float (s : String) : Bool :=
  (pyFloat? s).isSome

/-! ## Data model: supplies, snapshots, the log directory -/

/-- One entry of `/sys/class/power_supply`: a directory of attribute
files.  `attrs a = none` models an absent attribute file, `some c` a
file with raw content `c`.  (Unreadable-but-present attribute files,
fatal in the packaged variant, are outside the model.) -/
structure Supply where
  name : String
  attrs : String → Option String

/-- Model of `read_path`: an absent file yields the empty string, an
existing one its content stripped of surrounding whitespace. -/
def readPath (attrs : String → Option String) (file : String) : String :=
  match attrs file with
  | none => ""
  | some content => pystrip content

/-- `BATTERY_DATA_FILES` from `src/battmon/battmon.py`. -/
def BATTERY_DATA_FILES : List String :=
  ["capacity", "status", "technology", "energy_now", "energy_full_design", "voltage_now"]

/-- `REQUIRED_DATA_FILES` from `src/battmon/battmon.py`. -/
def REQUIRED_DATA_FILES : List String :=
  ["capacity", "status", "energy_now", "energy_full_design", "voltage_now"]

/-- `LOG_FILE_FIELDS` from `src/battmon/battmon.py`. -/
def LOG_FILE_FIELDS : List String :=
  ["time", "status", "capacity", "energy_now", "voltage_now"]

/-- `BATTERY_NAME_FILES` from `src/battmon/battmon.py`. -/
def BATTERY_NAME_FILES : List String :=
  ["manufacturer", "model_name", "serial_number"]

/-- One battery's in-memory state, as built by `get_battery_states`:
the dictionary of data-file readings plus the capture time in
milliseconds (`millis_time()`, a Python int). -/
structure Snapshot where
  attr : String → String
  time : Int

/-- The battery identity `"_".join(...)` over `BATTERY_NAME_FILES`. -/
def batteryId (su : Supply) : String :=
  String.intercalate "_" (BATTERY_NAME_FILES.map (readPath su.attrs))

/-- The snapshot dictionary built for one battery supply. -/
def mkSnapshot (now : Int) (su : Supply) : Snapshot :=
  ⟨fun a => if a ∈ BATTERY_DATA_FILES then readPath su.attrs a else "", now⟩

/-- Python-dict insertion on an association list: reassigning an
existing key keeps its position, a new key goes to the end. -/
def dictInsert {α : Type} (k : String) (v : α) : List (String × α) → List (String × α)
  | [] => [(k, v)]
  | (k2, v2) :: rest =>
    if k2 = k then (k2, v) :: rest else (k2, v2) :: dictInsert k v rest

/-- Model of `get_battery_states` (packaged variant, lines 112-127):
keep supplies whose `type` reads `"Battery"`, keyed by identity. -/
def get_battery_states (now : Int) (supplies : List Supply) : List (String × Snapshot) :=
  supplies.foldl
    (fun acc su =>
      if readPath su.attrs "type" = "Battery" then
        dictInsert (batteryId su) (mkSnapshot now su) acc
      else acc)
    []

/-- One persisted CSV row, as the list of its fields. -/
abbrev Row := List String

/-- A log file's content: `none` models a file that cannot be opened
(an `IOError` on `open`), `some rows` its list of CSV rows. -/
abbrev FileContent := Option (List Row)

/-- The log directory: file names with their contents, in listing
order. -/
abbrev LogDir := List (String × FileContent)

/-- Look a file up in the directory. -/
def getFile : LogDir → String → Option FileContent
  | [], _ => none
  | (f, c) :: rest, name => if f = name then some c else getFile rest name

/-- Open a file in append mode and write one row: creates the file if
absent; fails (`none`) if the file exists but cannot be opened. -/
def tryAppend : LogDir → String → Row → Option LogDir
  | [], name, r => some [(name, some [r])]
  | (f, c) :: rest, name, r =>
    if f = name then
      match c with
      | some rows => some ((f, some (rows ++ [r])) :: rest)
      | none => none
    else (tryAppend rest name r).map (fun d2 => (f, c) :: d2)

/-- The content of a file after a successful append to it. -/
def afterAppend : Option FileContent → Row → Option FileContent
  | none, r => some (some [r])
  | some (some rows), r => some (some (rows ++ [r]))
  | some none, _ => some none

/-! ## History Store, append side (packaged `log_battery_state`) -/

/-- The loop body of `check_state` (lines 66-72): scan the required
attributes, and on the first empty one emit the diagnostic and report
failure. -/
def checkStateAux (b : String) (s : Snapshot) : List String → Bool × List String
  | [] => (true, [])
  | a :: rest =>
    if s.attr a = "" then
      (false, ["Battery " ++ b ++ " is missing attribute" ++ a ++ "."])
    else checkStateAux b s rest

/-- Model of `check_state`: validation verdict plus the stderr
diagnostics it prints. -/
def check_state (b : String) (s : Snapshot) : Bool × List String :=
  checkStateAux b s REQUIRED_DATA_FILES

/-- The row written for one battery:
`[states[battery][x] for x in LOG_FILE_FIELDS]`, where the `"time"`
entry is an int that `csv.writer` renders in decimal. -/
def mkRow (s : Snapshot) : Row :=
  LOG_FILE_FIELDS.map (fun f => if f = "time" then intDecimal s.time else s.attr f)

/-- The loop of the packaged `log_battery_state` (lines 138-143) over
the battery states, threading the log directory and the emitted
diagnostics; an `IOError` on a log file is fatal (lines 144-146). -/
def logAux : List (String × Snapshot) → LogDir → List String →
    Except String (LogDir × List String)
  | [], d, diags => .ok (d, diags)
  | (b, s) :: rest, d, diags =>
    if (check_state b s).1 then
      match tryAppend d (b ++ ".log") (mkRow s) with
      | some d2 => logAux rest d2 diags
      | none => .error "Could not write to directory: /var/log/battmon Exiting ..."
    else logAux rest d (diags ++ (check_state b s).2)

/-- Model of the packaged `log_battery_state`, taking the battery
states (the result of `get_battery_states`) and the log directory. -/
def log_battery_state (states : List (String × Snapshot)) (d : LogDir) :
    Except String (LogDir × List String) :=
  logAux states d []

/-- The packaged logging entry point: read the supplies, then log. -/
def log_battery_state_full (now : Int) (supplies : List Supply) (d : LogDir) :
    Except String (LogDir × List String) :=
  log_battery_state (get_battery_states now supplies) d

/-! ## Standalone script variant (`src/battmon.py`) -/

/-- The script's status projection `read_path(...)[0].upper()`:
indexing an empty string raises `IndexError`. -/
def scriptStatusCode (status : String) : Except String String :=
  match status.data with
  | [] => .error "IndexError: string index out of range"
  | c :: _ => .ok (String.mk [c.toUpper])

/-- The script's battery identity
`manufacturer + "_" + model_name + "_" + serial_number`. -/
def scriptBatteryId (su : Supply) : String :=
  readPath su.attrs "manufacturer" ++ "_" ++ readPath su.attrs "model_name" ++ "_" ++
    readPath su.attrs "serial_number"

/-- The script's three-field row `[time, status, capacity]`. -/
def scriptRow (now : Int) (code capacity : String) : Row :=
  [intDecimal now, code, capacity]

/-- Model of the standalone script's `log_battery_state` (lines
51-84): iterate the supplies, keep batteries, derive the status code
(raising on an empty status), and append; exceptions propagate. -/
def script_log_battery_state (now : Int) : List Supply → LogDir → Except String LogDir
  | [], d => .ok d
  | su :: rest, d =>
    if readPath su.attrs "type" = "Battery" then
      match scriptStatusCode (readPath su.attrs "status") with
      | .error e => .error e
      | .ok code =>
        match tryAppend d (scriptBatteryId su ++ ".log")
            (scriptRow now code (readPath su.attrs "capacity")) with
        | some d2 => script_log_battery_state now rest d2
        | none => .error "IOError: unwritable log file"
    else script_log_battery_state now rest d

/-! ## History Store, read side (packaged `get_battery_history`) -/

/-- Substring test (Python's `in` on strings), by scanning. -/
def listStarts : List Char → List Char → Bool
  | [], _ => true
  | _ :: _, [] => false
  | p :: ps, t :: ts => p = t && listStarts ps ts

/-- Whether `pat` occurs inside `text`. -/
def strContainsAux (pat : List Char) : List Char → Bool
  | [] => listStarts pat []
  | t :: ts => listStarts pat (t :: ts) || strContainsAux pat ts

/-- `pat in s` for Python strings. -/
def strContains (s pat : String) : Bool :=
  strContainsAux pat.data s.data

/-- The field value produced by `csv.DictReader(log, LOG_FILE_FIELDS,
restval=0)` for field index `i`: the raw string if present, the int
`0` for a missing trailing field. -/
def pv (raw : List String) (i : ℕ) : PyVal :=
  match raw[i]? with
  | some t => .str t
  | none => .num 0

/-- The conversion loop body (lines 162-166): values accepted by
`float` become numbers, and fields whose name contains `energy` or
`voltage` are divided by 1e6. -/
def convertVal (name : String) (v : PyVal) : PyVal :=
  match v with
  | .num q =>
    if strContains name "energy" || strContains name "voltage" then .num (q / 1000000)
    else .num q
  | .str t =>
    match pyFloat? t with
    | some q =>
      if strContains name "energy" || strContains name "voltage" then .num (q / 1000000)
      else .num q
    | none => .str t

/-- Forget the distinction between row values and series values. -/
def toEntry : PyVal → Entry
  | .str s => .str s
  | .num q => .num q

/-- One converted, cutoff-accepted row of the history file. -/
structure RowDict where
  time : Entry
  status : Entry
  capacity : Entry
  energy_now : Entry
  voltage_now : Entry
deriving DecidableEq

/-- Processing of one raw CSV row (lines 161-172): blank rows are
skipped by `DictReader`; a row with more than five fields puts the
extras under the `None` restkey and `float()` then raises `TypeError`;
a row whose converted `time` is still a string raises `TypeError` at
`row["time"] >= cutoff`; otherwise the row is kept iff its time is at
or after the cutoff, with the time turned into a datetime value. -/
def processRow (cutoff : ℚ) (raw : List String) : Except String (Option RowDict) :=
  if raw.isEmpty then .ok none
  else if 5 < raw.length then
    .error "TypeError: float() argument must be a string or a number"
  else
    match convertVal "time" (pv raw 0) with
    | .str _ => .error "TypeError: unorderable comparison of str and int"
    | .num t =>
      if cutoff ≤ t then
        .ok (some ⟨.dt (t / 1000), toEntry (convertVal "status" (pv raw 1)),
          toEntry (convertVal "capacity" (pv raw 2)),
          toEntry (convertVal "energy_now" (pv raw 3)),
          toEntry (convertVal "voltage_now" (pv raw 4))⟩)
      else .ok none

/-- Process every row of one file, in order. -/
def parseRows (cutoff : ℚ) : List Row → Except String (List RowDict)
  | [] => .ok []
  | raw :: rest =>
    match processRow cutoff raw with
    | .error e => .error e
    | .ok none => parseRows cutoff rest
    | .ok (some r) => (parseRows cutoff rest).map (fun l => r :: l)

/-- The per-battery series: one list per field of `LOG_FILE_FIELDS`,
in file append order. -/
structure Series where
  time : List Entry
  status : List Entry
  capacity : List Entry
  energy_now : List Entry
  voltage_now : List Entry
deriving DecidableEq

/-- The `data` dictionary built from the accepted rows of one file. -/
def seriesOf (l : List RowDict) : Series :=
  ⟨l.map (·.time), l.map (·.status), l.map (·.capacity),
    l.map (·.energy_now), l.map (·.voltage_now)⟩

/-- Drop the extension from a file name (model of
`os.path.splitext(f)[0]` for a plain base name): the extension starts
at the last dot, ignoring any leading run of dots. -/
def dropExt (l : List Char) : List Char :=
  let lead := l.takeWhile (fun c => c = '.')
  let rest := l.dropWhile (fun c => c = '.')
  if rest.any (fun c => c = '.') then
    lead ++ (((rest.reverse.dropWhile (fun c => c ≠ '.')).drop 1).reverse)
  else l

/-- `os.path.splitext(logfile)[0]` on a base name. -/
def splitextBase (f : String) : String :=
  String.mk (dropExt f.data)

/-- The loop of `get_battery_history` (lines 156-173) over the log
files: a file that cannot be opened raises `IOError` (there is no
handler), a row failure raises `TypeError`; otherwise the battery id
is the stripped base name and the parsed series is recorded. -/
def gbhAux (cutoff : ℚ) : LogDir → List (String × Series) →
    Except String (List (String × Series))
  | [], hist => .ok hist
  | (fname, content) :: rest, hist =>
    match content with
    | none => .error ("IOError: could not open " ++ fname)
    | some rows =>
      match parseRows cutoff rows with
      | .error e => .error e
      | .ok l => gbhAux cutoff rest (dictInsert (pystrip (splitextBase fname)) (seriesOf l) hist)

/-- Model of `get_battery_history(offset)` with `millis_time()` passed
explicitly: `cutoff = now - offset`. -/
def get_battery_history (d : LogDir) (now offset : Int) :
    Except String (List (String × Series)) :=
  gbhAux ((now : ℚ) - (offset : ℚ)) d []

/-! ## Concrete data used in witnesses -/

/-- The spec's concrete scenario: a healthy battery with status
`Discharging` and capacity `76`, captured at 5 ms. -/
def demoSnap : Snapshot :=
  ⟨fun a =>
    if a = "status" then "Discharging"
    else if a = "capacity" then "76"
    else if a = "technology" then "Li-ion"
    else if a = "energy_now" then "1000000"
    else if a = "energy_full_design" then "2000000"
    else if a = "voltage_now" then "12000000"
    else "", 5⟩

/-- A snapshot that exposes capacity and status but no energy or
voltage attributes. -/
def badSnap : Snapshot :=
  ⟨fun a =>
    if a = "status" then "Charging"
    else if a = "capacity" then "50"
    else "", 7⟩

/-- A battery supply whose `status` attribute file is absent. -/
def noStatusSupply : Supply :=
  ⟨"BAT0", fun a => if a = "type" then some "Battery" else none⟩

/-! ## Correctness of the decimal rendering / parsing pair -/

theorem dropWhile_eq_nil_of {α : Type} (p : α → Bool) :
    ∀ l : List α, (∀ c ∈ l, p c = true) → l.dropWhile p = [] := by
  intro l h
  induction l with
  | nil => rfl
  | cons c t ih =>
    simp only [List.dropWhile]
    rw [h c (by simp)]
    exact ih fun x hx => h x (by simp [hx])

theorem takeWhile_eq_self_of {α : Type} (p : α → Bool) :
    ∀ l : List α, (∀ c ∈ l, p c = true) → l.takeWhile p = l := by
  intro l h
  induction l with
  | nil => rfl
  | cons c t ih =>
    simp only [List.takeWhile]
    rw [h c (by simp)]
    simp [ih fun x hx => h x (by simp [hx])]

theorem dropWhile_eq_self_of {α : Type} (p : α → Bool) :
    ∀ l : List α, (∀ c ∈ l, p c = false) → l.dropWhile p = l := by
  intro l h
  cases l with
  | nil => rfl
  | cons c t =>
    simp only [List.dropWhile]
    rw [h c (by simp)]

theorem stripChars_of (l : List Char) (h : ∀ c ∈ l, isSpaceChar c = false) :
    stripChars l = l := by
  unfold stripChars
  rw [dropWhile_eq_self_of _ l h,
    dropWhile_eq_self_of _ l.reverse fun c hc => h c (List.mem_reverse.mp hc),
    List.reverse_reverse]

theorem digitChar_bounds (d : ℕ) (h : d < 10) :
    48 ≤ (Nat.digitChar d).toNat ∧ (Nat.digitChar d).toNat ≤ 57 := by
  interval_cases d <;> decide

theorem digitVal_digitChar (d : ℕ) (h : d < 10) : digitVal? (Nat.digitChar d) = some d := by
  interval_cases d <;> decide

theorem natSpec_bounds (n : ℕ) : ∀ c ∈ natSpec n, 48 ≤ c.toNat ∧ c.toNat ≤ 57 := by
  induction n using Nat.strong_induction_on with
  | _ n ih =>
    rw [natSpec]
    split
    · intro c hc
      rw [List.mem_singleton] at hc
      subst hc
      exact digitChar_bounds n (by omega)
    · intro c hc
      rcases List.mem_append.mp hc with h1 | h2
      · exact ih (n / 10) (Nat.div_lt_self (by omega) (by omega)) c h1
      · rw [List.mem_singleton] at h2
        subst h2
        exact digitChar_bounds (n % 10) (Nat.mod_lt n (by omega))

theorem natSpec_ne_nil (n : ℕ) : natSpec n ≠ [] := by
  rw [natSpec]
  split
  · simp
  · simp

theorem natToCharsAux_zero : ∀ fuel acc, natToCharsAux fuel 0 acc = acc := by
  intro fuel acc
  cases fuel <;> rfl

theorem natToCharsAux_eq_natSpec (n : ℕ) :
    ∀ fuel acc, 0 < n → n ≤ fuel → natToCharsAux fuel n acc = natSpec n ++ acc := by
  induction n using Nat.strong_induction_on with
  | _ n ih =>
    intro fuel acc hn hfuel
    cases fuel with
    | zero => omega
    | succ f =>
      rw [natToCharsAux, if_neg (by omega)]
      by_cases hsmall : n < 10
      · rw [Nat.div_eq_of_lt hsmall, natToCharsAux_zero, natSpec, dif_pos hsmall,
          Nat.mod_eq_of_lt hsmall]
        rfl
      · rw [ih (n / 10) (Nat.div_lt_self hn (by omega)) f
          (Nat.digitChar (n % 10) :: acc) (by omega) (by omega)]
        conv_rhs => rw [natSpec]
        rw [dif_neg hsmall]
        simp

theorem natDecimalChars_eq_natSpec (n : ℕ) : natDecimalChars n = natSpec n := by
  unfold natDecimalChars
  by_cases h : n = 0
  · subst h
    rw [natSpec]
    rfl
  · rw [if_neg h, natToCharsAux_eq_natSpec n n [] (by omega) le_rfl, List.append_nil]

theorem parseDigitsAux_append_some (l : List Char) :
    ∀ m k r, parseDigitsAux l k = some r → parseDigitsAux (l ++ m) k = parseDigitsAux m r := by
  induction l with
  | nil =>
    intro m k r h
    simp only [parseDigitsAux] at h
    cases h
    rfl
  | cons c t ih =>
    intro m k r h
    simp only [parseDigitsAux] at h ⊢
    cases hd : digitVal? c with
    | none =>
      rw [hd] at h
      simp at h
    | some d =>
      rw [hd] at h
      exact ih m (10 * k + d) r h

theorem parseDigitsAux_natSpec (n : ℕ) : parseDigitsAux (natSpec n) 0 = some n := by
  induction n using Nat.strong_induction_on with
  | _ n ih =>
    rw [natSpec]
    split
    · simp only [parseDigitsAux]
      rw [digitVal_digitChar n (by omega)]
      simp [parseDigitsAux]
    · rw [parseDigitsAux_append_some (natSpec (n / 10)) _ 0 (n / 10)
        (ih (n / 10) (Nat.div_lt_self (by omega) (by omega)))]
      simp only [parseDigitsAux]
      rw [digitVal_digitChar (n % 10) (Nat.mod_lt n (by omega))]
      simp only [parseDigitsAux]
      congr 1
      omega

theorem parseNatChars_natSpec (n : ℕ) : parseNatChars (natSpec n) = some n := by
  unfold parseNatChars
  rw [if_neg, parseDigitsAux_natSpec]
  cases h : natSpec n with
  | nil => exact absurd h (natSpec_ne_nil n)
  | cons c t => simp [h]

theorem digit_ne_dot (c : Char) (hb : 48 ≤ c.toNat ∧ c.toNat ≤ 57) : c ≠ '.' := by
  intro he
  subst he
  revert hb
  decide

theorem pyFloatCore_natSpec (n : ℕ) : pyFloatCore (natSpec n) = some (n : ℚ) := by
  unfold pyFloatCore
  rw [dropWhile_eq_nil_of _ (natSpec n) fun c hc => by
    simpa using digit_ne_dot c (natSpec_bounds n c hc)]
  rw [takeWhile_eq_self_of _ (natSpec n) fun c hc => by
    simpa using digit_ne_dot c (natSpec_bounds n c hc)]
  rw [parseNatChars_natSpec]
  rfl

theorem natSpec_not_space (n : ℕ) : ∀ c ∈ natSpec n, isSpaceChar c = false := by
  intro c hc
  have := natSpec_bounds n c hc
  unfold isSpaceChar
  simp only [Bool.or_eq_false_iff, decide_eq_false_iff_not]
  omega

theorem pyFloat_natSpec (n : ℕ) : pyFloat? (String.mk (natSpec n)) = some (n : ℚ) := by
  unfold pyFloat?
  have hdata : (String.mk (natSpec n)).data = natSpec n := rfl
  rw [hdata, stripChars_of (natSpec n) (natSpec_not_space n)]
  cases h : natSpec n with
  | nil => exact absurd h (natSpec_ne_nil n)
  | cons c t =>
    have hb := natSpec_bounds n c (by rw [h]; simp)
    have hminus : ¬ c = '-' := by
      intro he
      subst he
      revert hb
      decide
    have hplus : ¬ c = '+' := by
      intro he
      subst he
      revert hb
      decide
    simp only [hminus, hplus, if_false]
    rw [← h, pyFloatCore_natSpec]

theorem pyFloat_intDecimal (i : Int) : pyFloat? (intDecimal i) = some (i : ℚ) := by
  unfold intDecimal
  by_cases hneg : i < 0
  · rw [if_pos hneg]
    unfold pyFloat?
    have hdata : (String.mk ('-' :: natDecimalChars i.natAbs)).data
        = '-' :: natSpec i.natAbs := by
      rw [natDecimalChars_eq_natSpec]
    rw [hdata, stripChars_of _ (by
      intro c hc
      rcases List.mem_cons.mp hc with h1 | h2
      · subst h1; decide
      · exact natSpec_not_space _ c h2)]
    simp only [if_pos rfl]
    rw [pyFloatCore_natSpec]
    have habs : (i.natAbs : ℤ) = -i := by omega
    have hq : -((i.natAbs : ℕ) : ℚ) = (i : ℚ) := by
      have h2 : ((i.natAbs : ℕ) : ℚ) = -(i : ℚ) := by
        rw [(Int.cast_natCast i.natAbs).symm, habs]
        push_cast
        ring
      rw [h2]
      ring
    simp [hq]
  · rw [if_neg hneg, natDecimalChars_eq_natSpec, pyFloat_natSpec]
    congr 1
    have : (i.toNat : ℤ) = i := by omega
    exact_mod_cast congrArg (fun z : ℤ => (z : ℚ)) this

/-! ## Lemmas about the append side -/

theorem tryAppend_self (d : LogDir) (f : String) (r : Row) :
    ∀ d2, tryAppend d f r = some d2 → getFile d2 f = afterAppend (getFile d f) r := by
  induction d with
  | nil =>
    intro d2 h
    simp only [tryAppend] at h
    cases h
    simp [getFile, afterAppend]
  | cons fc rest ih =>
    intro d2 h
    obtain ⟨g, c⟩ := fc
    simp only [tryAppend] at h
    by_cases hg : g = f
    · rw [if_pos hg] at h
      cases c with
      | none => cases h
      | some rows =>
        cases h
        simp [getFile, afterAppend, hg]
    · rw [if_neg hg] at h
      cases ht : tryAppend rest f r with
      | none => rw [ht] at h; cases h
      | some d3 =>
        rw [ht] at h
        cases h
        simp only [getFile, if_neg hg]
        exact ih d3 ht

theorem tryAppend_other (d : LogDir) (f : String) (r : Row) :
    ∀ d2 g, tryAppend d f r = some d2 → g ≠ f → getFile d2 g = getFile d g := by
  induction d with
  | nil =>
    intro d2 g h hg
    simp only [tryAppend] at h
    cases h
    simp only [getFile]
    rw [if_neg fun he => hg he.symm]
  | cons fc rest ih =>
    intro d2 g h hg
    obtain ⟨g0, c⟩ := fc
    simp only [tryAppend] at h
    by_cases hg0 : g0 = f
    · rw [if_pos hg0] at h
      cases c with
      | none => cases h
      | some rows =>
        cases h
        have hne : ¬ g0 = g := fun he => hg (he ▸ hg0)
        simp [getFile, hne]
    · rw [if_neg hg0] at h
      cases ht : tryAppend rest f r with
      | none => rw [ht] at h; cases h
      | some d3 =>
        rw [ht] at h
        cases h
        simp only [getFile]
        by_cases hgg : g0 = g
        · simp [hgg]
        · simp only [if_neg hgg]
          exact ih d3 g ht hg

theorem tryAppend_writable (d : LogDir) (f : String) (r : Row) :
    ∀ d2, tryAppend d f r = some d2 → getFile d f ≠ some none := by
  induction d with
  | nil =>
    intro d2 _h
    simp [getFile]
  | cons fc rest ih =>
    intro d2 h
    obtain ⟨g, c⟩ := fc
    simp only [tryAppend] at h
    by_cases hg : g = f
    · rw [if_pos hg] at h
      cases c with
      | none => cases h
      | some rows =>
        simp [getFile, hg]
    · rw [if_neg hg] at h
      cases ht : tryAppend rest f r with
      | none => rw [ht] at h; cases h
      | some d3 =>
        simp only [getFile, if_neg hg]
        exact ih d3 ht

theorem logKey_inj (b1 b2 : String) (h : b1 ++ ".log" = b2 ++ ".log") : b1 = b2 := by
  have hd := congrArg String.data h
  rw [String.data_append, String.data_append] at hd
  exact String.ext (List.append_cancel_right hd)

theorem logAux_frame :
    ∀ (states : List (String × Snapshot)) (d : LogDir) (diags : List String)
      (d2 : LogDir) (diags2 : List String) (f : String),
      logAux states d diags = .ok (d2, diags2) →
      (∀ b s, (b, s) ∈ states → (check_state b s).1 = true → f ≠ b ++ ".log") →
      getFile d2 f = getFile d f := by
  intro states
  induction states with
  | nil =>
    intro d diags d2 diags2 f h _hf
    simp only [logAux] at h
    cases h
    rfl
  | cons bs rest ih =>
    intro d diags d2 diags2 f h hf
    obtain ⟨b, s⟩ := bs
    simp only [logAux] at h
    by_cases hc : (check_state b s).1 = true
    · rw [if_pos hc] at h
      cases ht : tryAppend d (b ++ ".log") (mkRow s) with
      | none => rw [ht] at h; cases h
      | some dmid =>
        rw [ht] at h
        rw [ih dmid diags d2 diags2 f h
          fun b2 s2 hm hcs => hf b2 s2 (List.mem_cons_of_mem _ hm) hcs]
        exact tryAppend_other d (b ++ ".log") (mkRow s) dmid f ht
          (hf b s (List.mem_cons_self _ _) hc)
    · rw [if_neg hc] at h
      exact ih d (diags ++ (check_state b s).2) d2 diags2 f h
        fun b2 s2 hm hcs => hf b2 s2 (List.mem_cons_of_mem _ hm) hcs

theorem logAux_file :
    ∀ (states : List (String × Snapshot)) (d : LogDir) (diags : List String)
      (d2 : LogDir) (diags2 : List String) (b : String) (s : Snapshot),
      logAux states d diags = .ok (d2, diags2) →
      (states.map Prod.fst).Nodup →
      (b, s) ∈ states →
      getFile d2 (b ++ ".log") =
        if (check_state b s).1 then afterAppend (getFile d (b ++ ".log")) (mkRow s)
        else getFile d (b ++ ".log") := by
  intro states
  induction states with
  | nil =>
    intro d diags d2 diags2 b s _h _hnd hm
    cases hm
  | cons bs rest ih =>
    intro d diags d2 diags2 b s h hnd hm
    obtain ⟨b0, s0⟩ := bs
    have hnd2 : (rest.map Prod.fst).Nodup := by
      rw [List.map_cons] at hnd
      exact hnd.of_cons
    have hb0 : b0 ∉ rest.map Prod.fst := by
      rw [List.map_cons] at hnd
      exact (List.nodup_cons.mp hnd).1
    simp only [logAux] at h
    rcases List.mem_cons.mp hm with hhead | htail
    · have hb : b = b0 := congrArg Prod.fst hhead
      have hs : s = s0 := congrArg Prod.snd hhead
      subst hb
      subst hs
      by_cases hc : (check_state b s).1 = true
      · rw [if_pos hc] at h ⊢
        cases ht : tryAppend d (b ++ ".log") (mkRow s) with
        | none => rw [ht] at h; cases h
        | some dmid =>
          rw [ht] at h
          rw [logAux_frame rest dmid diags d2 diags2 (b ++ ".log") h
            (by
              intro b2 s2 hm2 _hcs2 he
              exact hb0 (logKey_inj b b2 he ▸ List.mem_map_of_mem Prod.fst hm2))]
          exact tryAppend_self d (b ++ ".log") (mkRow s) dmid ht
      · rw [if_neg hc] at h
        rw [if_neg hc]
        exact logAux_frame rest d (diags ++ (check_state b s).2) d2 diags2 (b ++ ".log") h
          (by
            intro b2 s2 hm2 _hcs2 he
            exact hb0 (logKey_inj b b2 he ▸ List.mem_map_of_mem Prod.fst hm2))
    · have hbne : b ≠ b0 := by
        intro he
        exact hb0 (he ▸ List.mem_map_of_mem Prod.fst htail)
      have hfne : (b ++ ".log") ≠ (b0 ++ ".log") := fun he => hbne (logKey_inj b b0 he)
      by_cases hc : (check_state b0 s0).1 = true
      · rw [if_pos hc] at h
        cases ht : tryAppend d (b0 ++ ".log") (mkRow s0) with
        | none => rw [ht] at h; cases h
        | some dmid =>
          rw [ht] at h
          rw [ih dmid diags d2 diags2 b s h hnd2 htail,
            tryAppend_other d (b0 ++ ".log") (mkRow s0) dmid (b ++ ".log") ht hfne]
      · rw [if_neg hc] at h
        exact ih d (diags ++ (check_state b0 s0).2) d2 diags2 b s h hnd2 htail

theorem logAux_writable :
    ∀ (states : List (String × Snapshot)) (d : LogDir) (diags : List String)
      (d2 : LogDir) (diags2 : List String) (b : String) (s : Snapshot),
      logAux states d diags = .ok (d2, diags2) →
      (states.map Prod.fst).Nodup →
      (b, s) ∈ states → (check_state b s).1 = true →
      getFile d (b ++ ".log") ≠ some none := by
  intro states
  induction states with
  | nil =>
    intro d diags d2 diags2 b s _h _hnd hm
    cases hm
  | cons bs rest ih =>
    intro d diags d2 diags2 b s h hnd hm hc
    obtain ⟨b0, s0⟩ := bs
    have hnd2 : (rest.map Prod.fst).Nodup := by
      rw [List.map_cons] at hnd
      exact hnd.of_cons
    have hb0 : b0 ∉ rest.map Prod.fst := by
      rw [List.map_cons] at hnd
      exact (List.nodup_cons.mp hnd).1
    simp only [logAux] at h
    rcases List.mem_cons.mp hm with hhead | htail
    · have hb : b = b0 := congrArg Prod.fst hhead
      have hs : s = s0 := congrArg Prod.snd hhead
      subst hb
      subst hs
      rw [if_pos hc] at h
      cases ht : tryAppend d (b ++ ".log") (mkRow s) with
      | none => rw [ht] at h; cases h
      | some dmid => exact tryAppend_writable d (b ++ ".log") (mkRow s) dmid ht
    · have hbne : b ≠ b0 := by
        intro he
        exact hb0 (he ▸ List.mem_map_of_mem Prod.fst htail)
      have hfne : (b ++ ".log") ≠ (b0 ++ ".log") := fun he => hbne (logKey_inj b b0 he)
      by_cases hc0 : (check_state b0 s0).1 = true
      · rw [if_pos hc0] at h
        cases ht : tryAppend d (b0 ++ ".log") (mkRow s0) with
        | none => rw [ht] at h; cases h
        | some dmid =>
          rw [ht] at h
          have hres := ih dmid diags d2 diags2 b s h hnd2 htail hc
          rw [tryAppend_other d (b0 ++ ".log") (mkRow s0) dmid (b ++ ".log") ht hfne] at hres
          exact hres
      · rw [if_neg hc0] at h
        exact ih d (diags ++ (check_state b0 s0).2) d2 diags2 b s h hnd2 htail hc

theorem logAux_diag_mono :
    ∀ (states : List (String × Snapshot)) (d : LogDir) (diags : List String)
      (d2 : LogDir) (diags2 : List String),
      logAux states d diags = .ok (d2, diags2) →
      ∀ m ∈ diags, m ∈ diags2 := by
  intro states
  induction states with
  | nil =>
    intro d diags d2 diags2 h m hm
    simp only [logAux] at h
    cases h
    exact hm
  | cons bs rest ih =>
    intro d diags d2 diags2 h m hm
    obtain ⟨b0, s0⟩ := bs
    simp only [logAux] at h
    by_cases hc : (check_state b0 s0).1 = true
    · rw [if_pos hc] at h
      cases ht : tryAppend d (b0 ++ ".log") (mkRow s0) with
      | none => rw [ht] at h; cases h
      | some dmid =>
        rw [ht] at h
        exact ih dmid diags d2 diags2 h m hm
    · rw [if_neg hc] at h
      exact ih d (diags ++ (check_state b0 s0).2) d2 diags2 h m (by simp [hm])

theorem logAux_diag_mem :
    ∀ (states : List (String × Snapshot)) (d : LogDir) (diags : List String)
      (d2 : LogDir) (diags2 : List String) (b : String) (s : Snapshot),
      logAux states d diags = .ok (d2, diags2) →
      (b, s) ∈ states → (check_state b s).1 = false →
      ∀ m ∈ (check_state b s).2, m ∈ diags2 := by
  intro states
  induction states with
  | nil =>
    intro d diags d2 diags2 b s _h hm
    cases hm
  | cons bs rest ih =>
    intro d diags d2 diags2 b s h hm hc m hmm
    obtain ⟨b0, s0⟩ := bs
    simp only [logAux] at h
    rcases List.mem_cons.mp hm with hhead | htail
    · have hb : b = b0 := congrArg Prod.fst hhead
      have hs : s = s0 := congrArg Prod.snd hhead
      subst hb
      subst hs
      rw [hc] at h
      simp only [Bool.false_eq_true, if_false] at h
      exact logAux_diag_mono rest d (diags ++ (check_state b s).2) d2 diags2 h m (by simp [hmm])
    · by_cases hc0 : (check_state b0 s0).1 = true
      · rw [if_pos hc0] at h
        cases ht : tryAppend d (b0 ++ ".log") (mkRow s0) with
        | none => rw [ht] at h; cases h
        | some dmid =>
          rw [ht] at h
          exact ih dmid diags d2 diags2 b s h htail hc m hmm
      · rw [if_neg hc0] at h
        exact ih d (diags ++ (check_state b0 s0).2) d2 diags2 b s h htail hc m hmm

theorem checkStateAux_true_iff (b : String) (s : Snapshot) :
    ∀ l : List String, (checkStateAux b s l).1 = true ↔ ∀ a ∈ l, s.attr a ≠ "" := by
  intro l
  induction l with
  | nil => simp [checkStateAux]
  | cons a rest ih =>
    simp only [checkStateAux]
    by_cases ha : s.attr a = ""
    · rw [if_pos ha]
      simp only [List.mem_cons]
      constructor
      · intro h
        cases h
      · intro h
        exact absurd ha (h a (Or.inl rfl))
    · rw [if_neg ha]
      rw [ih]
      constructor
      · intro h a2 hm
        rcases List.mem_cons.mp hm with h1 | h2
        · subst h1
          exact ha
        · exact h a2 h2
      · intro h a2 hm
        exact h a2 (List.mem_cons_of_mem _ hm)

theorem check_state_true_iff (b : String) (s : Snapshot) :
    (check_state b s).1 = true ↔
      (s.attr "capacity" ≠ "" ∧ s.attr "status" ≠ "" ∧ s.attr "energy_now" ≠ "" ∧
       s.attr "energy_full_design" ≠ "" ∧ s.attr "voltage_now" ≠ "") := by
  rw [check_state, checkStateAux_true_iff]
  unfold REQUIRED_DATA_FILES
  constructor
  · intro h
    exact ⟨h _ (by simp), h _ (by simp), h _ (by simp), h _ (by simp), h _ (by simp)⟩
  · intro h a hm
    fin_cases hm <;> tauto

theorem checkStateAux_false_msg (b : String) (s : Snapshot) :
    ∀ l : List String, (checkStateAux b s l).1 = false →
      ∃ m, (checkStateAux b s l).2 = [m] := by
  intro l
  induction l with
  | nil => simp [checkStateAux]
  | cons a rest ih =>
    simp only [checkStateAux]
    by_cases ha : s.attr a = ""
    · rw [if_pos ha]
      intro _h
      exact ⟨_, rfl⟩
    · rw [if_neg ha]
      exact ih

/-! ## Lemmas about the read side -/

theorem mkRow_eq (s : Snapshot) :
    mkRow s = [intDecimal s.time, s.attr "status", s.attr "capacity",
      s.attr "energy_now", s.attr "voltage_now"] := by
  rfl

theorem convertVal_str_of_num (name s : String) (q : ℚ) (hs : pyFloat? s = some q) :
    convertVal name (.str s) =
      (if strContains name "energy" || strContains name "voltage" then .num (q / 1000000)
       else .num q) := by
  simp only [convertVal]
  rw [hs]

theorem convertVal_str_of_str (name s : String) (hs : pyFloat? s = none) :
    convertVal name (.str s) = .str s := by
  simp only [convertVal]
  rw [hs]

theorem convertVal_num (name : String) (q : ℚ) :
    convertVal name (.num q) =
      (if strContains name "energy" || strContains name "voltage" then .num (q / 1000000)
       else .num q) := by
  simp only [convertVal]

theorem processRow_full (c : ℚ) (t : Int) (st capStr e v : String) (capq : ℚ)
    (hst : pyFloat? st = none) (hcap : pyFloat? capStr = some capq) :
    processRow c [intDecimal t, st, capStr, e, v] =
      .ok (if c ≤ (t : ℚ) then
        some ⟨.dt ((t : ℚ) / 1000), .str st, .num capq,
          toEntry (convertVal "energy_now" (.str e)),
          toEntry (convertVal "voltage_now" (.str v))⟩
      else none) := by
  have htime : convertVal "time" (pv [intDecimal t, st, capStr, e, v] 0) = .num (t : ℚ) := by
    show convertVal "time" (.str (intDecimal t)) = _
    rw [convertVal_str_of_num _ _ _ (pyFloat_intDecimal t)]
    norm_num [show (strContains "time" "energy" || strContains "time" "voltage") = false
      from by decide]
  unfold processRow
  rw [htime]
  have hne : ([intDecimal t, st, capStr, e, v] : List String).isEmpty = false := rfl
  have hlen : ¬ 5 < ([intDecimal t, st, capStr, e, v] : List String).length := by simp
  rw [hne]
  simp only [Bool.false_eq_true, if_false, if_neg hlen]
  by_cases hcut : c ≤ (t : ℚ)
  · rw [if_pos hcut, if_pos hcut]
    have hstv : convertVal "status" (pv [intDecimal t, st, capStr, e, v] 1) = .str st :=
      convertVal_str_of_str _ _ hst
    have hcapv : convertVal "capacity" (pv [intDecimal t, st, capStr, e, v] 2) = .num capq := by
      show convertVal "capacity" (.str capStr) = _
      rw [convertVal_str_of_num _ _ _ hcap]
      norm_num [show (strContains "capacity" "energy" || strContains "capacity" "voltage")
        = false from by decide]
    rw [hstv, hcapv]
    rfl
  · rw [if_neg hcut, if_neg hcut]

theorem processRow_legacy (c : ℚ) (t : Int) (st capStr : String) :
    processRow c [intDecimal t, st, capStr] =
      .ok (if c ≤ (t : ℚ) then
        some ⟨.dt ((t : ℚ) / 1000), toEntry (convertVal "status" (.str st)),
          toEntry (convertVal "capacity" (.str capStr)), .num 0, .num 0⟩
      else none) := by
  have htime : convertVal "time" (pv [intDecimal t, st, capStr] 0) = .num (t : ℚ) := by
    show convertVal "time" (.str (intDecimal t)) = _
    rw [convertVal_str_of_num _ _ _ (pyFloat_intDecimal t)]
    norm_num [show (strContains "time" "energy" || strContains "time" "voltage") = false
      from by decide]
  have henergy : convertVal "energy_now" (pv [intDecimal t, st, capStr] 3) = .num 0 := by
    show convertVal "energy_now" (.num 0) = _
    rw [convertVal_num]
    norm_num [show (strContains "energy_now" "energy" || strContains "energy_now" "voltage")
      = true from by decide]
  have hvolt : convertVal "voltage_now" (pv [intDecimal t, st, capStr] 4) = .num 0 := by
    show convertVal "voltage_now" (.num 0) = _
    rw [convertVal_num]
    norm_num [show (strContains "voltage_now" "energy" || strContains "voltage_now" "voltage")
      = true from by decide]
  unfold processRow
  rw [htime]
  have hne : ([intDecimal t, st, capStr] : List String).isEmpty = false := rfl
  have hlen : ¬ 5 < ([intDecimal t, st, capStr] : List String).length := by simp
  rw [hne]
  simp only [Bool.false_eq_true, if_false, if_neg hlen]
  by_cases hcut : c ≤ (t : ℚ)
  · rw [if_pos hcut, if_pos hcut, henergy, hvolt]
    rfl
  · rw [if_neg hcut, if_neg hcut]

theorem parseRows_single_some (c : ℚ) (raw : Row) (r : RowDict)
    (h : processRow c raw = .ok (some r)) : parseRows c [raw] = .ok [r] := by
  simp [parseRows, h, Except.map]

theorem parseRows_single_none (c : ℚ) (raw : Row)
    (h : processRow c raw = .ok none) : parseRows c [raw] = .ok [] := by
  simp [parseRows, h]

theorem gbh_single (fname : String) (rows : List Row) (now offset : Int)
    (l : List RowDict) (h : parseRows ((now : ℚ) - (offset : ℚ)) rows = .ok l) :
    get_battery_history [(fname, some rows)] now offset =
      .ok [(pystrip (splitextBase fname), seriesOf l)] := by
  unfold get_battery_history
  simp only [gbhAux]
  rw [h]
  rfl

theorem gbhAux_error (c : ℚ) :
    ∀ (d : LogDir) (hist : List (String × Series)) (f : String),
      (f, (none : Option (List Row))) ∈ d →
      ∃ e, gbhAux c d hist = .error e := by
  intro d
  induction d with
  | nil =>
    intro hist f hm
    cases hm
  | cons fc rest ih =>
    intro hist f hm
    obtain ⟨g, content⟩ := fc
    cases content with
    | none => exact ⟨_, rfl⟩
    | some rows =>
      simp only [gbhAux]
      cases hp : parseRows c rows with
      | error e => exact ⟨e, rfl⟩
      | ok l =>
        rcases List.mem_cons.mp hm with hhead | htail
        · cases hhead
        · exact ih (dictInsert (pystrip (splitextBase g)) (seriesOf l) hist) f htail

/-! ## Lemmas about the state reader and the script variant -/

theorem gbsAux_filter (now : Int) :
    ∀ (supplies : List Supply) (acc : List (String × Snapshot)),
      List.foldl
        (fun acc su =>
          if readPath su.attrs "type" = "Battery" then
            dictInsert (batteryId su) (mkSnapshot now su) acc
          else acc) acc supplies =
      List.foldl
        (fun acc su =>
          if readPath su.attrs "type" = "Battery" then
            dictInsert (batteryId su) (mkSnapshot now su) acc
          else acc) acc
        (supplies.filter (fun su => readPath su.attrs "type" == "Battery")) := by
  intro supplies
  induction supplies with
  | nil => intro acc; rfl
  | cons su rest ih =>
    intro acc
    by_cases hb : readPath su.attrs "type" = "Battery"
    · simp only [List.foldl_cons, List.filter_cons, hb, if_pos, beq_self_eq_true, if_true]
      exact ih (dictInsert (batteryId su) (mkSnapshot now su) acc)
    · have hb2 : (readPath su.attrs "type" == "Battery") = false := by
        simp [hb]
      simp only [List.foldl_cons, List.filter_cons, hb2, Bool.false_eq_true, if_false]
      rw [if_neg hb]
      exact ih acc

theorem scriptLog_filter (now : Int) :
    ∀ (supplies : List Supply) (d : LogDir),
      script_log_battery_state now supplies d =
        script_log_battery_state now
          (supplies.filter (fun su => readPath su.attrs "type" == "Battery")) d := by
  intro supplies
  induction supplies with
  | nil => intro d; rfl
  | cons su rest ih =>
    intro d
    by_cases hb : readPath su.attrs "type" = "Battery"
    · have hb2 : (readPath su.attrs "type" == "Battery") = true := by simp [hb]
      simp only [List.filter_cons, hb2, if_true]
      simp only [script_log_battery_state, if_pos hb]
      split
      · rfl
      · split
        · apply ih
        · rfl
    · have hb2 : (readPath su.attrs "type" == "Battery") = false := by simp [hb]
      simp only [List.filter_cons, hb2, Bool.false_eq_true, if_false]
      simp only [script_log_battery_state, if_neg hb]
      exact ih d

theorem scriptLog_error_of_empty_status (now : Int) :
    ∀ (supplies : List Supply) (d : LogDir) (su : Supply),
      su ∈ supplies → readPath su.attrs "type" = "Battery" →
      readPath su.attrs "status" = "" →
      ∃ e, script_log_battery_state now supplies d = .error e := by
  intro supplies
  induction supplies with
  | nil =>
    intro d su hm
    cases hm
  | cons su0 rest ih =>
    intro d su hm htype hstatus
    rcases List.mem_cons.mp hm with hhead | htail
    · subst hhead
      simp only [script_log_battery_state, if_pos htype]
      rw [hstatus]
      exact ⟨_, rfl⟩
    · simp only [script_log_battery_state]
      by_cases hb : readPath su0.attrs "type" = "Battery"
      · rw [if_pos hb]
        split
        · exact ⟨_, rfl⟩
        · split
          · rename_i d2 _ht
            exact ih d2 su htail htype hstatus
          · exact ⟨_, rfl⟩
      · rw [if_neg hb]
        exact ih d su htail htype hstatus

/-! ## Claims -/

/-- Claim C1, counterexample.  In the packaged revision the persisted
status field is the full raw status string, not its upper-cased first
character: the spec's Acme X1 snapshot (status `Discharging`, capacity
76) is logged, and the row written for it carries `Discharging`, not
`D`.  So the claim, which asserts the one-character code for both
revisions of `log_battery_state`, is false. -/
theorem battmon_C1_counterexample :
    (check_state "Acme_X1_42" demoSnap).1 = true ∧
    log_battery_state [("Acme_X1_42", demoSnap)] [] =
      .ok ([("Acme_X1_42.log",
        some [["5", "Discharging", "76", "1000000", "12000000"]])], []) ∧
    "Discharging" ≠ "D" := by
  refine ⟨rfl, ?_, by decide⟩
  rfl

/-- Claim C1, amended.  The status field of the row persisted by the
packaged `log_battery_state` is the raw status string unchanged, while
the standalone script stores the upper-cased first character of a
non-empty raw status string. -/
theorem battmon_C1_amended (s : Snapshot) (st : String) (c : Char)
    (rest : List Char) (h : st.data = c :: rest) :
    (mkRow s)[1]? = some (s.attr "status") ∧
    scriptStatusCode st = .ok (String.mk [c.toUpper]) := by
  constructor
  · rfl
  · unfold scriptStatusCode
    rw [h]

/-- Witness for the amended C1 at the spec's concrete scenario. -/
theorem battmon_C1_witness :
    "Discharging".data = 'D' :: "ischarging".data ∧
    ((mkRow demoSnap)[1]? = some (demoSnap.attr "status") ∧
     scriptStatusCode "Discharging" = .ok (String.mk ['D'.toUpper])) :=
  ⟨rfl, battmon_C1_amended demoSnap "Discharging" 'D' "ischarging".data rfl⟩

/-- Claim C3, counterexample.  A log directory in which `a.log` is
readable and well-formed but `b.log` cannot be opened makes the whole
read fail with the propagated `IOError`; reading the directory without
the broken file shows the series the claim expected to survive. -/
theorem battmon_C3_counterexample :
    get_battery_history
        [("a.log", some [[intDecimal 5, "D", "76"]]), ("b.log", none)] 10 5
      = .error "IOError: could not open b.log" ∧
    get_battery_history [("a.log", some [[intDecimal 5, "D", "76"]])] 10 5
      = .ok [("a", ⟨[.dt ((5 : ℚ) / 1000)], [.str "D"], [.num 76],
          [.num (0 / 1000000)], [.num (0 / 1000000)]⟩)] := by
  have hc : ((10 : Int) : ℚ) - ((5 : Int) : ℚ) = 5 := by norm_num
  constructor
  · unfold get_battery_history
    rw [hc]
    rfl
  · unfold get_battery_history
    rw [hc]
    rfl

/-- Claim C3, amended.  `get_battery_history` has no exception
handler: whenever any battery's log file fails to open, the whole read
fails with an error instead of skipping that file. -/
theorem battmon_C3_amended (d : LogDir) (now offset : Int) (f : String)
    (hm : (f, (none : FileContent)) ∈ d) :
    ∃ e, get_battery_history d now offset = .error e :=
  gbhAux_error ((now : ℚ) - (offset : ℚ)) d [] f hm

/-- Witness for the amended C3 at a concrete directory. -/
theorem battmon_C3_witness :
    (("b.log", (none : FileContent)) ∈
      [("a.log", (some [[intDecimal 5, "D", "76"]] : FileContent)), ("b.log", none)]) ∧
    (∃ e, get_battery_history
        [("a.log", some [[intDecimal 5, "D", "76"]]), ("b.log", none)] 10 5 = .error e) :=
  ⟨by simp, battmon_C3_amended
    [("a.log", some [[intDecimal 5, "D", "76"]]), ("b.log", none)] 10 5 "b.log" (by simp)⟩

/-- Claim C6.  A legacy three-field row `(timestamp, status,
capacity)` is parsed successfully by the reader configured with the
five-field `LOG_FILE_FIELDS` schema: `DictReader`'s `restval=0` fills
the missing `energy_now` and `voltage_now` fields with 0, which the
conversion loop turns into the number 0. -/
theorem battmon_C6 (now offset t : Int) (st capStr : String) :
    ∃ stE capE,
      processRow ((now : ℚ) - (offset : ℚ)) [intDecimal t, st, capStr] =
        .ok (if ((now : ℚ) - (offset : ℚ)) ≤ (t : ℚ)
             then some ⟨.dt ((t : ℚ) / 1000), stE, capE, .num 0, .num 0⟩ else none) :=
  ⟨toEntry (convertVal "status" (.str st)), toEntry (convertVal "capacity" (.str capStr)),
    processRow_legacy ((now : ℚ) - (offset : ℚ)) t st capStr⟩

/-- Claim C7.  Supplies whose `type` attribute does not read exactly
`"Battery"` (AC adapters, USB supplies, supplies with no type file)
are excluded: `get_battery_states` computes the same result on the
supply list as on its battery-only sublist, and the standalone
script's logger likewise never touches them. -/
theorem battmon_C7 (now : Int) (supplies : List Supply) :
    get_battery_states now supplies =
      get_battery_states now
        (supplies.filter (fun su => readPath su.attrs "type" == "Battery")) ∧
    ∀ d : LogDir, script_log_battery_state now supplies d =
      script_log_battery_state now
        (supplies.filter (fun su => readPath su.attrs "type" == "Battery")) d :=
  ⟨gbsAux_filter now supplies [], fun d => scriptLog_filter now supplies d⟩

/-- Claim C9.  In the standalone script, a supply of type `"Battery"`
whose status file is absent or empty makes `log_battery_state` raise
(`read_path(...)[0]` on the empty string is an `IndexError`): the
whole invocation fails instead of logging that battery with a default
or skipping it. -/
theorem battmon_C9 (now : Int) (supplies : List Supply) (d : LogDir) (su : Supply)
    (hmem : su ∈ supplies)
    (htype : readPath su.attrs "type" = "Battery")
    (hstatus : readPath su.attrs "status" = "") :
    (∃ e, script_log_battery_state now supplies d = .error e) ∧
    scriptStatusCode "" = .error "IndexError: string index out of range" :=
  ⟨scriptLog_error_of_empty_status now supplies d su hmem htype hstatus, rfl⟩

/-- Witness for C9: a battery supply with no status file. -/
theorem battmon_C9_witness :
    (noStatusSupply ∈ [noStatusSupply]) ∧
    readPath noStatusSupply.attrs "type" = "Battery" ∧
    readPath noStatusSupply.attrs "status" = "" ∧
    ((∃ e, script_log_battery_state 0 [noStatusSupply] [] = .error e) ∧
     scriptStatusCode "" = .error "IndexError: string index out of range") :=
  ⟨by simp, rfl, rfl, battmon_C9 0 [noStatusSupply] [] noStatusSupply (by simp) rfl rfl⟩

/-- Claim C2.  Round-trip: a record appended for a validated snapshot
(raw status not a numeral, capacity a numeral of exact value `capq`)
and read back with a cutoff at or before its timestamp yields exactly
one series point whose time is the capture timestamp (converted to
seconds for the datetime), whose status is the persisted status string
unchanged, and whose capacity is the exact numeric value of the
persisted capacity — numeric fields recovered exactly. -/
theorem battmon_C2 (b : String) (s : Snapshot) (now offset : Int) (capq : ℚ)
    (hck : (check_state b s).1 = true)
    (hst : pyFloat? (s.attr "status") = none)
    (hcap : pyFloat? (s.attr "capacity") = some capq)
    (hcut : now - offset ≤ s.time) :
    ∃ e v,
      log_battery_state [(b, s)] [] = .ok ([(b ++ ".log", some [mkRow s])], []) ∧
      get_battery_history [(b ++ ".log", some [mkRow s])] now offset =
        .ok [(pystrip (splitextBase (b ++ ".log")),
          ⟨[.dt ((s.time : ℚ) / 1000)], [.str (s.attr "status")], [.num capq],
            [e], [v]⟩)] := by
  refine ⟨toEntry (convertVal "energy_now" (.str (s.attr "energy_now"))),
    toEntry (convertVal "voltage_now" (.str (s.attr "voltage_now"))), ?_, ?_⟩
  · show logAux [(b, s)] [] [] = _
    simp only [logAux]
    rw [if_pos hck]
    rfl
  · have hq : ((now : ℚ) - (offset : ℚ)) ≤ ((s.time : ℚ)) := by
      have h2 : ((now - offset : Int) : ℚ) ≤ ((s.time : Int) : ℚ) := by exact_mod_cast hcut
      push_cast at h2
      linarith
    have hrow := processRow_full ((now : ℚ) - (offset : ℚ)) s.time (s.attr "status")
      (s.attr "capacity") (s.attr "energy_now") (s.attr "voltage_now") capq hst hcap
    rw [if_pos hq] at hrow
    rw [← mkRow_eq] at hrow
    exact gbh_single (b ++ ".log") [mkRow s] now offset _ (parseRows_single_some _ _ _ hrow)

/-- Witness for C2 at the spec's concrete scenario. -/
theorem battmon_C2_witness :
    ((check_state "Acme_X1_42" demoSnap).1 = true) ∧
    (pyFloat? (demoSnap.attr "status") = none) ∧
    (pyFloat? (demoSnap.attr "capacity") = some 76) ∧
    ((10 : Int) - 5 ≤ demoSnap.time) ∧
    (∃ e v,
      log_battery_state [("Acme_X1_42", demoSnap)] [] =
        .ok ([("Acme_X1_42" ++ ".log", some [mkRow demoSnap])], []) ∧
      get_battery_history [("Acme_X1_42" ++ ".log", some [mkRow demoSnap])] 10 5 =
        .ok [(pystrip (splitextBase ("Acme_X1_42" ++ ".log")),
          ⟨[.dt ((demoSnap.time : ℚ) / 1000)], [.str (demoSnap.attr "status")],
            [.num 76], [e], [v]⟩)]) :=
  ⟨rfl, rfl, rfl, by decide, battmon_C2 "Acme_X1_42" demoSnap 10 5 76 rfl rfl rfl (by decide)⟩

/-- Claim C4.  In one append invocation, a battery whose required
attributes fail validation is skipped: its file is untouched, its
diagnostic is emitted, and every validated battery of the same
invocation still gets its record appended unchanged. -/
theorem battmon_C4 (states : List (String × Snapshot)) (d d2 : LogDir)
    (diags2 : List String) (b : String) (s : Snapshot)
    (hnd : (states.map Prod.fst).Nodup)
    (hok : log_battery_state states d = .ok (d2, diags2))
    (hmem : (b, s) ∈ states)
    (hbad : (check_state b s).1 = false) :
    getFile d2 (b ++ ".log") = getFile d (b ++ ".log") ∧
    (∃ m, m ∈ (check_state b s).2 ∧ m ∈ diags2) ∧
    ∀ b2 s2, (b2, s2) ∈ states → (check_state b2 s2).1 = true →
      getFile d2 (b2 ++ ".log") = afterAppend (getFile d (b2 ++ ".log")) (mkRow s2) := by
  refine ⟨?_, ?_, ?_⟩
  · have hfile := logAux_file states d [] d2 diags2 b s hok hnd hmem
    rw [hbad] at hfile
    simpa using hfile
  · obtain ⟨m, hm⟩ := checkStateAux_false_msg b s REQUIRED_DATA_FILES hbad
    have hmem2 : m ∈ (check_state b s).2 := by
      show m ∈ (checkStateAux b s REQUIRED_DATA_FILES).2
      rw [hm]
      simp
    exact ⟨m, hmem2, logAux_diag_mem states d [] d2 diags2 b s hok hmem hbad m hmem2⟩
  · intro b2 s2 hm2 hc2
    have hfile := logAux_file states d [] d2 diags2 b2 s2 hok hnd hm2
    rw [if_pos hc2] at hfile
    exact hfile

/-- Witness for C4: one invalid battery (missing energy attributes)
logged together with the spec's healthy Acme battery. -/
theorem battmon_C4_witness :
    ((List.map Prod.fst [("Bad", badSnap), ("Acme_X1_42", demoSnap)]).Nodup) ∧
    (log_battery_state [("Bad", badSnap), ("Acme_X1_42", demoSnap)] [] =
      .ok ([("Acme_X1_42.log", some [["5", "Discharging", "76", "1000000", "12000000"]])],
        ["Battery Bad is missing attributeenergy_now."])) ∧
    (("Bad", badSnap) ∈ [("Bad", badSnap), ("Acme_X1_42", demoSnap)]) ∧
    ((check_state "Bad" badSnap).1 = false) ∧
    (getFile [("Acme_X1_42.log", some [["5", "Discharging", "76", "1000000", "12000000"]])]
        ("Bad" ++ ".log") = getFile [] ("Bad" ++ ".log") ∧
     (∃ m, m ∈ (check_state "Bad" badSnap).2 ∧
        m ∈ ["Battery Bad is missing attributeenergy_now."]) ∧
     ∀ b2 s2, (b2, s2) ∈ [("Bad", badSnap), ("Acme_X1_42", demoSnap)] →
        (check_state b2 s2).1 = true →
        getFile [("Acme_X1_42.log", some [["5", "Discharging", "76", "1000000", "12000000"]])]
            (b2 ++ ".log")
          = afterAppend (getFile [] (b2 ++ ".log")) (mkRow s2)) :=
  ⟨by decide, rfl, List.mem_cons_self _ _, rfl,
    battmon_C4 [("Bad", badSnap), ("Acme_X1_42", demoSnap)] []
      [("Acme_X1_42.log", some [["5", "Discharging", "76", "1000000", "12000000"]])]
      ["Battery Bad is missing attributeenergy_now."] "Bad" badSnap
      (by decide) rfl (List.mem_cons_self _ _) rfl⟩

/-- Claim C5.  The cutoff comparison of `get_battery_history` is
inclusive: a record stamped exactly `now - offset` is returned as a
series point, while a record stamped one millisecond earlier is
dropped entirely. -/
theorem battmon_C5 (now offset : Int) (st capStr : String) :
    (∃ stE capE,
      get_battery_history
          [("batt.log", some [[intDecimal (now - offset), st, capStr]])] now offset
        = .ok [("batt", ⟨[.dt (((now - offset : Int) : ℚ) / 1000)], [stE], [capE],
            [.num 0], [.num 0]⟩)]) ∧
    get_battery_history
        [("batt.log", some [[intDecimal (now - offset - 1), st, capStr]])] now offset
      = .ok [("batt", ⟨[], [], [], [], []⟩)] := by
  have hc1 : ((now : ℚ) - (offset : ℚ)) ≤ ((now - offset : Int) : ℚ) := by
    push_cast
    linarith
  have hc2 : ¬ ((now : ℚ) - (offset : ℚ)) ≤ ((now - offset - 1 : Int) : ℚ) := by
    push_cast
    linarith
  constructor
  · refine ⟨toEntry (convertVal "status" (.str st)),
      toEntry (convertVal "capacity" (.str capStr)), ?_⟩
    have hrow := processRow_legacy ((now : ℚ) - (offset : ℚ)) (now - offset) st capStr
    rw [if_pos hc1] at hrow
    have hg := gbh_single "batt.log" [[intDecimal (now - offset), st, capStr]] now offset
      _ (parseRows_single_some _ _ _ hrow)
    rw [hg]
    rfl
  · have hrow := processRow_legacy ((now : ℚ) - (offset : ℚ)) (now - offset - 1) st capStr
    rw [if_neg hc2] at hrow
    have hg := gbh_single "batt.log" [[intDecimal (now - offset - 1), st, capStr]] now offset
      _ (parseRows_single_none _ _ hrow)
    rw [hg]
    rfl

/-- Claim C8.  Appending is append-only: for a validated battery whose
file already holds `rows`, the file after the invocation is exactly
the old rows followed by the one new row, and any file not belonging
to a validated battery of the invocation is untouched. -/
theorem battmon_C8 (states : List (String × Snapshot)) (d d2 : LogDir)
    (diags2 : List String) (b : String) (s : Snapshot) (rows : List Row)
    (hnd : (states.map Prod.fst).Nodup)
    (hok : log_battery_state states d = .ok (d2, diags2))
    (hmem : (b, s) ∈ states)
    (hgood : (check_state b s).1 = true)
    (hold : getFile d (b ++ ".log") = some (some rows)) :
    getFile d2 (b ++ ".log") = some (some (rows ++ [mkRow s])) ∧
    ∀ f, (∀ b2 s2, (b2, s2) ∈ states → (check_state b2 s2).1 = true → f ≠ b2 ++ ".log") →
      getFile d2 f = getFile d f := by
  constructor
  · have hfile := logAux_file states d [] d2 diags2 b s hok hnd hmem
    rw [if_pos hgood, hold] at hfile
    simpa [afterAppend] using hfile
  · intro f hf
    exact logAux_frame states d [] d2 diags2 f hok hf

/-- Witness for C8: appending to an existing one-row file. -/
theorem battmon_C8_witness :
    ((List.map Prod.fst [("Acme_X1_42", demoSnap)]).Nodup) ∧
    (log_battery_state [("Acme_X1_42", demoSnap)]
        [("Acme_X1_42.log", some [["1", "D", "76"]])] =
      .ok ([("Acme_X1_42.log",
        some [["1", "D", "76"], ["5", "Discharging", "76", "1000000", "12000000"]])], [])) ∧
    (("Acme_X1_42", demoSnap) ∈ [("Acme_X1_42", demoSnap)]) ∧
    ((check_state "Acme_X1_42" demoSnap).1 = true) ∧
    (getFile [("Acme_X1_42.log", some [["1", "D", "76"]])] ("Acme_X1_42" ++ ".log")
      = some (some [["1", "D", "76"]])) ∧
    (getFile [("Acme_X1_42.log",
        some [["1", "D", "76"], ["5", "Discharging", "76", "1000000", "12000000"]])]
        ("Acme_X1_42" ++ ".log")
      = some (some ([["1", "D", "76"]] ++ [mkRow demoSnap])) ∧
     ∀ f, (∀ b2 s2, (b2, s2) ∈ [("Acme_X1_42", demoSnap)] →
        (check_state b2 s2).1 = true → f ≠ b2 ++ ".log") →
       getFile [("Acme_X1_42.log",
           some [["1", "D", "76"], ["5", "Discharging", "76", "1000000", "12000000"]])] f
         = getFile [("Acme_X1_42.log", some [["1", "D", "76"]])] f) :=
  ⟨by decide, rfl, List.mem_cons_self _ _, rfl, rfl,
    battmon_C8 [("Acme_X1_42", demoSnap)] [("Acme_X1_42.log", some [["1", "D", "76"]])]
      [("Acme_X1_42.log",
        some [["1", "D", "76"], ["5", "Discharging", "76", "1000000", "12000000"]])]
      [] "Acme_X1_42" demoSnap [["1", "D", "76"]]
      (by decide) rfl (List.mem_cons_self _ _) rfl rfl⟩

/-- Claim C10.  In the packaged variant a record is appended for a
battery (its file changes) iff all five of capacity, status,
energy_now, energy_full_design and voltage_now read back non-empty; in
particular a battery lacking energy or voltage attributes is never
logged. -/
theorem battmon_C10 (states : List (String × Snapshot)) (d d2 : LogDir)
    (diags2 : List String) (b : String) (s : Snapshot)
    (hnd : (states.map Prod.fst).Nodup)
    (hok : log_battery_state states d = .ok (d2, diags2))
    (hmem : (b, s) ∈ states) :
    (getFile d2 (b ++ ".log") ≠ getFile d (b ++ ".log")) ↔
      (s.attr "capacity" ≠ "" ∧ s.attr "status" ≠ "" ∧ s.attr "energy_now" ≠ "" ∧
       s.attr "energy_full_design" ≠ "" ∧ s.attr "voltage_now" ≠ "") := by
  rw [← check_state_true_iff b s]
  have hfile := logAux_file states d [] d2 diags2 b s hok hnd hmem
  by_cases hc : (check_state b s).1 = true
  · rw [if_pos hc] at hfile
    simp only [hc, iff_true]
    rw [hfile]
    have hw := logAux_writable states d [] d2 diags2 b s hok hnd hmem hc
    cases hx : getFile d (b ++ ".log") with
    | none => simp [afterAppend]
    | some fc =>
      cases fc with
      | none => exact absurd hx hw
      | some rows =>
        simp only [afterAppend]
        intro he
        have hinj := Option.some.inj (Option.some.inj he)
        have hlen := congrArg List.length hinj
        simp at hlen
  · have hcf : (check_state b s).1 = false := by
      revert hc
      cases (check_state b s).1 <;> simp
    rw [hcf] at hfile
    simp only [Bool.false_eq_true, if_false] at hfile
    rw [hfile]
    simp [hc]

/-- Witness for C10: a battery exposing capacity and status but no
energy or voltage attributes is never logged. -/
theorem battmon_C10_witness :
    ((List.map Prod.fst [("NoEnergy", badSnap)]).Nodup) ∧
    (log_battery_state [("NoEnergy", badSnap)] [] =
      .ok ([], ["Battery NoEnergy is missing attributeenergy_now."])) ∧
    (("NoEnergy", badSnap) ∈ [("NoEnergy", badSnap)]) ∧
    ((getFile ([] : LogDir) ("NoEnergy" ++ ".log") ≠ getFile ([] : LogDir) ("NoEnergy" ++ ".log")) ↔
      (badSnap.attr "capacity" ≠ "" ∧ badSnap.attr "status" ≠ "" ∧
       badSnap.attr "energy_now" ≠ "" ∧ badSnap.attr "energy_full_design" ≠ "" ∧
       badSnap.attr "voltage_now" ≠ "")) :=
  ⟨by decide, rfl, List.mem_cons_self _ _,
    battmon_C10 [("NoEnergy", badSnap)] [] []
      ["Battery NoEnergy is missing attributeenergy_now."]
      "NoEnergy" badSnap (by decide) rfl (List.mem_cons_self _ _)⟩

end Battmon
